import Mathlib

/-!
Verification development for the tox pylock/requirements/path utilities.

The Python sources embedded here are:
  * `src/tox/tox_env/python/pip/pylock.py`   (`PylockFile`, `PylockDeps`)
  * `src/tox/tox_env/python/pip/req_file.py` (`_is_pylock_file`, `PythonDeps`,
    `_PylockAwareRequirementsFile`)
  * `src/tox/util/path.py`                   (`ensure_cachedir_tag`)

External collaborators (the TOML decoder, the `packaging` library's
`SpecifierSet.contains`, `Marker` construction/evaluation, and the base
`RequirementsFile` parser) are modelled as explicit function parameters or,
where noted, modelled from the specification.
-/

/-! ## String helpers

Structural-recursion models of the Python string operations used by the
sources (`str.lower`, `str.startswith`, `str.endswith`, `str.split`,
`"sep".join`).  They are written over `String.data` so that concrete
instances reduce in the kernel. -/

/-- Python `str.lower()` restricted to ASCII case mapping. -/
def strToLower (s : String) : String :=
  String.mk (s.data.map Char.toLower)

/-- Python `str.startswith(p)`. -/
def strStartsWith (s p : String) : Bool :=
  p.data.isPrefixOf s.data

/-- Python `str.endswith(p)`. -/
def strEndsWith (s p : String) : Bool :=
  p.data.isSuffixOf s.data

/-- Split a character list on a separator character; never returns `[]`,
matching Python `str.split(sep)` which returns `[""]` on the empty string. -/
def splitChar (c : Char) (l : List Char) : List (List Char) :=
  l.foldr
    (fun ch acc =>
      if ch = c then [] :: acc
      else
        match acc with
        | [] => [[ch]]
        | a :: as => (ch :: a) :: as)
    [[]]

/-- Python `s.split("\n")`. -/
def splitNl (s : String) : List String :=
  (splitChar '\n' s.data).map String.mk

/-- Python `s.split(" ")`. -/
def splitSp (s : String) : List String :=
  (splitChar ' ' s.data).map String.mk

/-- Python `sep.join(l)`. -/
def joinSep (sep : String) : List String → String
  | [] => ""
  | [a] => a
  | a :: b :: rest => a ++ sep ++ joinSep sep (b :: rest)

/-- Python `"\n".join(l)`. -/
def joinNl (l : List String) : String := joinSep "\n" l

/-! ## `src/tox/util/path.py`

`ensure_cachedir_tag` touches a single file, `path / "CACHEDIR.TAG"`.  The
relevant filesystem state is the content of that file: `none` when the file
does not exist, `some c` when it exists with content `c`. -/

/-- The fixed `_CACHEDIR_TAG_CONTENT` constant from `src/tox/util/path.py`. -/
def cachedirTagContent : String :=
  "Signature: 8a477f597d28d172789f06886806bc55\n" ++
  "# This file is a cache directory tag created by tox.\n" ++
  "# For information about cache directory tags, see:\n" ++
  "#\thttps://bford.info/cachedir/spec.html\n"

/-- `ensure_cachedir_tag` from `src/tox/util/path.py`, acting on the content
of `path / "CACHEDIR.TAG"` (`none` = file absent): if the tag file does not
exist, write `cachedirTagContent` into it; otherwise leave it untouched. -/
def ensureCachedirTag (tag : Option String) : Option String :=
  match tag with
  | none => some cachedirTagContent
  | some c => some c

/-! ## `src/tox/tox_env/python/pip/pylock.py`

The TOML decoder is an external collaborator: a successfully decoded
document is modelled by `LockDoc` following the schema the source reads
(`lock-version`, `requires-python`, `created-by`, `default-groups`,
`packages`), with `Option` for absent keys and the list defaults the source
supplies via `dict.get`.  `SpecifierSet(spec).contains(v)` is modelled by a
function parameter `specContains : String → String → Bool`, and
`Marker(m)` construction plus `.evaluate()` by
`markerEval : String → Except Unit Bool` (`.error` = the library raised).
`Requirement(req_str)` round-trips to `req_str` via `str` for the
name/`name==version` strings this code builds, so requirement values are
modelled by the strings themselves. -/

/-- Python exceptions raised by the pylock code. -/
inductive PyErr
  | fileNotFound (msg : String)
  | valueError (msg : String)
  | keyError (key : String)
  deriving Repr, DecidableEq

/-- One `[[packages]]` entry of a decoded lock document. -/
structure Package where
  name : Option String
  version : Option String
  marker : Option String
  requiresPython : Option String
  deriving Repr, DecidableEq

/-- A decoded lock document (the `dict` produced by `tomllib.load`),
restricted to the keys the source reads. -/
structure LockDoc where
  lockVersion : Option String
  requiresPython : Option String
  createdBy : Option String
  defaultGroups : List String
  packages : List Package
  deriving Repr, DecidableEq

/-- The mutable state of a `PylockFile` instance: `self._data`. -/
structure PylockState where
  data : Option LockDoc
  deriving Repr, DecidableEq

/-- Error message for a document missing `lock-version`. -/
def missingLockVersionMsg : String :=
  "Lock file missing required lock-version field"

/-- Error message for an unsupported `lock-version` value. -/
def unsupportedLockVersionMsg (v : String) : String :=
  "Unsupported lock file version: " ++ v ++ ", expected 1.x"

/-- Error message for a document-level `requires-python` mismatch. -/
def incompatiblePythonMsg (rp vs : String) : String :=
  "Lock file requires Python " ++ rp ++ ", but current is " ++ vs

/-- `PylockFile._ensure_loaded`.  `file` is the external state of the lock
path: `none` when the path does not exist, `some doc` when it exists and
decodes to `doc`.  Note the source assigns `self._data` *before* validating
`lock-version`, so the state keeps the document even when validation fails. -/
def ensureLoaded (file : Option LockDoc) (st : PylockState) :
    Except PyErr Unit × PylockState :=
  match st.data with
  | some _ => (.ok (), st)
  | none =>
    match file with
    | none => (.error (.fileNotFound "Lock file not found"), st)
    | some doc =>
      let st' : PylockState := { data := some doc }
      match doc.lockVersion with
      | none => (.error (.valueError missingLockVersionMsg), st')
      | some v =>
        if strStartsWith v "1." then (.ok (), st')
        else (.error (.valueError (unsupportedLockVersionMsg v)), st')

/-- `".".join(str(v) for v in vs)` for a version tuple. -/
def joinVersion (vs : List Nat) : String :=
  joinSep "." (vs.map (fun v => toString v))

/-- `PylockFile._check_compatibility`: document-level `requires-python`
check against `current_python[:3]`.  Empty-string specifiers are falsy in
Python and skip the check. -/
def checkCompatibility (specContains : String → String → Bool)
    (file : Option LockDoc) (st : PylockState) (currentPython : List Nat) :
    Except PyErr Unit × PylockState :=
  match ensureLoaded file st with
  | (.error e, st') => (.error e, st')
  | (.ok _, st') =>
    match st'.data with
    | none => (.error (.valueError "assert"), st')
    | some doc =>
      match doc.requiresPython with
      | none => (.ok (), st')
      | some rp =>
        if rp = "" then (.ok (), st')
        else
          let versionStr := joinVersion (currentPython.take 3)
          if specContains rp versionStr then (.ok (), st')
          else (.error (.valueError (incompatiblePythonMsg rp versionStr)), st')

/-- `PylockFile._should_install_package`: no (or falsy) marker means
install; an evaluable marker decides; a marker whose construction or
evaluation raises is conservatively included. -/
def shouldInstallPackage (markerEval : String → Except Unit Bool)
    (pkg : Package) (extras dependencyGroups : List String) : Bool :=
  match pkg.marker with
  | none => true
  | some m =>
    if m = "" then true
    else
      match markerEval m with
      | .ok b => b
      | .error _ => true

/-- `PylockFile._build_requirement_string`: `None` without a (truthy) name,
`name==version` with a truthy version, bare `name` otherwise. -/
def buildRequirementString (pkg : Package) : Option String :=
  match pkg.name with
  | none => none
  | some n =>
    if n = "" then none
    else
      match pkg.version with
      | none => some n
      | some v => if v = "" then some n else some (n ++ "==" ++ v)

/-- The `for pkg in packages` loop body of `PylockFile.get_requirements`:
marker filter, per-package `requires-python` filter (note: against the full
`python_version`, not `[:3]`), then requirement-string construction. -/
def processPackages (specContains : String → String → Bool)
    (markerEval : String → Except Unit Bool) (pythonVersion : List Nat)
    (extras dependencyGroups : List String) : List Package → List String
  | [] => []
  | pkg :: rest =>
    let tail :=
      processPackages specContains markerEval pythonVersion extras dependencyGroups rest
    if !shouldInstallPackage markerEval pkg extras dependencyGroups then tail
    else
      let skip :=
        match pkg.requiresPython with
        | none => false
        | some rp =>
          if rp = "" then false
          else !specContains rp (joinVersion pythonVersion)
      if skip then tail
      else
        match buildRequirementString pkg with
        | none => tail
        | some s => if s = "" then tail else s :: tail

/-- `PylockFile.get_requirements`.  `sysVersionInfo` stands for
`sys.version_info`; `extras`/`dependencyGroups`/`pythonVersion` are the
keyword arguments with `none` for the Python `None` defaults. -/
def getRequirements (specContains : String → String → Bool)
    (markerEval : String → Except Unit Bool) (sysVersionInfo : List Nat)
    (file : Option LockDoc) (st : PylockState)
    (extras dependencyGroups : Option (List String))
    (pythonVersion : Option (List Nat)) :
    Except PyErr (List String) × PylockState :=
  match ensureLoaded file st with
  | (.error e, st') => (.error e, st')
  | (.ok _, st') =>
    match st'.data with
    | none => (.error (.valueError "assert"), st')
    | some doc =>
      let pythonVersion := pythonVersion.getD (sysVersionInfo.take 3)
      match checkCompatibility specContains file st' pythonVersion with
      | (.error e, st2) => (.error e, st2)
      | (.ok _, st2) =>
        let extras := extras.getD []
        let dependencyGroups := dependencyGroups.getD doc.defaultGroups
        (.ok (processPackages specContains markerEval pythonVersion extras
            dependencyGroups doc.packages), st2)

/-- The `PylockFile.lock_version` property: lazy load, then
`self._data["lock-version"]` (a `KeyError` when the key is absent). -/
def lockVersionProp (file : Option LockDoc) (st : PylockState) :
    Except PyErr String × PylockState :=
  match ensureLoaded file st with
  | (.error e, st') => (.error e, st')
  | (.ok _, st') =>
    match st'.data with
    | none => (.error (.valueError "assert"), st')
    | some doc =>
      match doc.lockVersion with
      | some v => (.ok v, st')
      | none => (.error (.keyError "lock-version"), st')

/-- The `PylockFile.created_by` property: lazy load, then
`self._data.get("created-by", "unknown")`. -/
def createdByProp (file : Option LockDoc) (st : PylockState) :
    Except PyErr String × PylockState :=
  match ensureLoaded file st with
  | (.error e, st') => (.error e, st')
  | (.ok _, st') =>
    match st'.data with
    | none => (.error (.valueError "assert"), st')
    | some doc => (.ok (doc.createdBy.getD "unknown"), st')

/-- The document-level compatibility condition of
`PylockFile._check_compatibility` as a boolean on the decoded document and
the python version it is checked against. -/
def docCompatible (specContains : String → String → Bool) (doc : LockDoc)
    (pythonVersion : List Nat) : Bool :=
  match doc.requiresPython with
  | none => true
  | some rp =>
    if rp = "" then true
    else specContains rp (joinVersion (pythonVersion.take 3))

/-! ## `src/tox/tox_env/python/pip/req_file.py`

The full pipeline behind `PythonDeps.as_root_args` combines code from this
file with the base `RequirementsFile` parser (`req/file.py`), which is not
part of the sources; the base parser's behaviour is modelled from the
specification where noted.  `PylockFile(path).get_requirements()` as a
whole is abstracted by `lockReqs : String → Except Unit (List String)`
(`.error` = some step of lock parsing or requirement extraction raised),
and the base class's raw file read by
`superGet : String → Except Unit String`. -/

/-- `_is_pylock_file` from `req_file.py`. -/
def isPylockFile (pathStr : String) : Bool :=
  let pathLower := strToLower pathStr
  pathLower = "pylock.toml" ||
    (strStartsWith pathLower "pylock." && strEndsWith pathLower ".toml")

/-- The spec's recognition pattern, stated independently from the code:
"case-insensitive exact match on pylock.toml or prefix pylock. plus suffix
.toml". -/
def isPylockFileSpec (s : String) : Prop :=
  strToLower s = "pylock.toml" ∨
    (strStartsWith (strToLower s) "pylock." = true ∧
      strEndsWith (strToLower s) ".toml" = true)

/-- `pathlib.Path(s).name` for slash-separated paths: the last path
component. -/
def pathName (s : String) : String :=
  (splitChar '/' s.data).getLastD [] |> String.mk

/-- `url.startswith(("http://", "https://", "file://"))`. -/
def isUrlScheme (url : String) : Bool :=
  strStartsWith url "http://" || strStartsWith url "https://" ||
    strStartsWith url "file://"

/-- `PythonDeps._get_file_content`: expand a pylock file reference into the
newline-joined requirement list when the pylock pipeline succeeds; on any
exception fall through to the self-content check and then the base class
read. -/
def pyDepsGetFileContent (lockReqs : String → Except Unit (List String))
    (superGet : String → Except Unit String) (selfPath raw url : String) :
    Except Unit String :=
  let expanded : Option String :=
    if !isUrlScheme url && isPylockFile (pathName url) then
      match lockReqs url with
      | .ok reqs => some (joinNl reqs)
      | .error _ => none
    else none
  match expanded with
  | some s => .ok s
  | none => if url = selfPath then .ok raw else superGet url

/-- `_PylockAwareRequirementsFile._get_file_content`: same interception
without the self-content special case. -/
def pylockAwareGetFileContent (lockReqs : String → Except Unit (List String))
    (superGet : String → Except Unit String) (url : String) :
    Except Unit String :=
  let expanded : Option String :=
    if !isUrlScheme url && isPylockFile (pathName url) then
      match lockReqs url with
      | .ok reqs => some (joinNl reqs)
      | .error _ => none
    else none
  match expanded with
  | some s => .ok s
  | none => superGet url

/-- Classify a (normalized, flag-space-filename) line as a `-r` include
(`some (true, f)`), a `-c` constraint (`some (false, f)`) or neither. -/
def lineDirective (l : String) : Option (Bool × String) :=
  match splitSp l with
  | ["-r", f] => some (true, f)
  | ["-c", f] => some (false, f)
  | _ => none

/-- A line the modelled parser treats as a plain requirement: not an
include/constraint directive, not blank, not a comment, not an option. -/
def plainReqLine (l : String) : Bool :=
  (lineDirective l).isNone && !(l = "") && !strStartsWith l "#" &&
    !strStartsWith l "-"

/-- Modelled from the spec: the base `RequirementsFile` parser's
include-directive traversal (spec §4.3/§6), which `req/file.py` provides
and is not part of the sources.  Lines are processed in order; `-r FILE`
fetches `FILE` through `getContent` (the pylock-aware override), parses the
fetched content recursively and records `FILE` among the accumulated
`opt.requirements`; `-c FILE` records a constraint; blank and comment lines
are skipped; any other option line and a directive whose argument starts
with `-` are parse errors; remaining lines are requirement strings.  `fuel`
bounds the number of processed lines.  Returns
(parsed requirement strings, `opt.requirements`, `opt.constraints`). -/
def parseReqLines (getContent : String → Except Unit String) :
    Nat → List String → Except Unit (List String × List String × List String)
  | _, [] => .ok ([], [], [])
  | 0, _ :: _ => .error ()
  | fuel + 1, line :: rest =>
    match lineDirective line with
    | some (true, f) =>
      if strStartsWith f "-" then .error ()
      else
        match getContent f with
        | .error e => .error e
        | .ok content =>
          match parseReqLines getContent fuel (splitNl content) with
          | .error e => .error e
          | .ok (subReqs, subR, subC) =>
            match parseReqLines getContent fuel rest with
            | .error e => .error e
            | .ok (reqs, rs, cs) =>
              .ok (subReqs ++ reqs, f :: (subR ++ rs), subC ++ cs)
    | some (false, f) =>
      if strStartsWith f "-" then .error ()
      else
        match parseReqLines getContent fuel rest with
        | .error e => .error e
        | .ok (reqs, rs, cs) => .ok (reqs, rs, f :: cs)
    | none =>
      if line = "" then parseReqLines getContent fuel rest
      else if strStartsWith line "#" then parseReqLines getContent fuel rest
      else if strStartsWith line "-" then .error ()
      else
        match parseReqLines getContent fuel rest with
        | .error e => .error e
        | .ok (reqs, rs, cs) => .ok (line :: reqs, rs, cs)

/-- `["-r", r1, "-r", r2, ...]` (resp. `-c`): the flag/value pair list the
option-flattening code emits per recorded file. -/
def rcPairs (flag : String) : List String → List String
  | [] => []
  | r :: rest => flag :: r :: rcPairs flag rest

/-- Modelled from the spec: the base `RequirementsFile._option_to_args`
flattening (spec §4.2/§6) — `-r`/`-c` pairs for the recorded requirement
and constraint files followed by the remaining flattened options
(`extra`). -/
def parentOptionToArgs (optReqs optCons extra : List String) : List String :=
  rcPairs "-r" optReqs ++ rcPairs "-c" optCons ++ extra

/-- The `while` loop at the end of `PythonDeps._option_to_args_filtered`:
drop every `-r`/`-c` flag together with its following argument; a trailing
flag with no argument is kept. -/
def stripRC : List String → List String
  | [] => []
  | [a] => [a]
  | a :: b :: rest =>
    if a = "-r" || a = "-c" then stripRC rest
    else a :: stripRC (b :: rest)

/-- `PythonDeps._option_to_args_filtered`: re-emit `-r` pairs only for
non-pylock requirement files, `-c` pairs as-is, then the parent flattening
with all `-r`/`-c` pairs stripped. -/
def optionToArgsFiltered (optReqs optCons extra : List String) :
    List String :=
  rcPairs "-r" (optReqs.filter (fun r => !isPylockFile (pathName r))) ++
    rcPairs "-c" optCons ++
    stripRC (parentOptionToArgs optReqs optCons extra)

/-- `PythonDeps.as_root_args`: fetch the root document (its own path
resolves to `raw`), parse it recursively with the pylock-aware
`_get_file_content`, flatten the parsed requirements (`req.as_args()` of a
plain requirement is the requirement string itself) and append the
filtered option arguments. -/
def asRootArgs (lockReqs : String → Except Unit (List String))
    (superGet : String → Except Unit String) (selfPath raw : String)
    (extra : List String) (fuel : Nat) : Except Unit (List String) :=
  let getContent := pyDepsGetFileContent lockReqs superGet selfPath raw
  match getContent selfPath with
  | .error e => .error e
  | .ok content =>
    match parseReqLines getContent fuel (splitNl content) with
    | .error e => .error e
    | .ok (reqs, optReqs, optCons) =>
      .ok (reqs ++ optionToArgsFiltered optReqs optCons extra)

/-- The forbidden output shape for C2: an argument followed by a pylock
reference may not be the `-r` flag, i.e. consecutive arguments never form a
literal `-r <lock-file>` pair. -/
def noLockRefPair (a b : String) : Prop :=
  a = "-r" → isPylockFile (pathName b) = false

/-! ## Concrete sample data

Instances of the collaborator functions and documents used to evaluate the
embedding on concrete inputs. -/

/-- A specifier-satisfaction collaborator that accepts nothing. -/
def specNever : String → String → Bool := fun _ _ => false

/-- A marker collaborator that always raises (e.g. PEP 751 extension
syntax such as markers using in extras / in dependency_groups). -/
def markerErr : String → Except Unit Bool := fun _ => .error ()

/-- A decoded lock document with no `lock-version` key. -/
def docNoLockVersion : LockDoc := ⟨none, none, none, [], []⟩

/-- The document `{lock-version:"1.0",
packages:[{name:"pytest", version:"7.4.0"}]}`. -/
def docPytest : LockDoc :=
  ⟨some "1.0", none, none, [], [⟨some "pytest", some "7.4.0", none, none⟩]⟩

/-- A document whose document-level `requires-python` is `==3.12`. -/
def docIncompat : LockDoc :=
  ⟨some "1.0", some "==3.12", none, [],
    [⟨some "pytest", some "7.4.0", none, none⟩]⟩

/-- A package entry with a `requires-python` excluding Python 3. -/
def pkgOld : Package := ⟨some "old-package", some "1.0.0", none, some ">=2.7,<3.0"⟩

/-- A package entry with a marker whose evaluation raises. -/
def pkgMarkerExt : Package :=
  ⟨some "dev-tool", some "1.0.0", some "dev in dependency_groups", none⟩

/-- A lock-requirements collaborator that succeeds on `pylock.toml`. -/
def lockReqsPytest : String → Except Unit (List String) :=
  fun u => if u = "pylock.toml" then .ok ["pytest==7.4.0"] else .error ()

/-- A base-class file read that always raises. -/
def superGetNone : String → Except Unit String := fun _ => .error ()

/-! ## Helper lemmas -/

theorem ensureLoaded_cached (file : Option LockDoc) (doc : LockDoc) :
    ensureLoaded file ⟨some doc⟩ = (.ok (), ⟨some doc⟩) := rfl

theorem ensureLoaded_fresh_valid {doc : LockDoc} {v : String}
    (hv : doc.lockVersion = some v) (h1 : strStartsWith v "1." = true) :
    ensureLoaded (some doc) ⟨none⟩ = (.ok (), ⟨some doc⟩) := by
  simp [ensureLoaded, hv, h1]

theorem ensureLoaded_fresh_missing {doc : LockDoc}
    (h : doc.lockVersion = none) :
    ensureLoaded (some doc) ⟨none⟩ =
      (.error (.valueError missingLockVersionMsg), ⟨some doc⟩) := by
  simp [ensureLoaded, h]

theorem ensureLoaded_fresh_unsupported {doc : LockDoc} {v : String}
    (hv : doc.lockVersion = some v) (h1 : strStartsWith v "1." = false) :
    ensureLoaded (some doc) ⟨none⟩ =
      (.error (.valueError (unsupportedLockVersionMsg v)), ⟨some doc⟩) := by
  simp [ensureLoaded, hv, h1]

theorem checkCompatibility_ok {sc : String → String → Bool}
    {doc : LockDoc} {pv : List Nat} (file : Option LockDoc)
    (h : docCompatible sc doc pv = true) :
    checkCompatibility sc file ⟨some doc⟩ pv = (.ok (), ⟨some doc⟩) := by
  unfold checkCompatibility
  rw [ensureLoaded_cached]
  unfold docCompatible at h
  cases hrp : doc.requiresPython with
  | none => simp [hrp]
  | some rp =>
    rw [hrp] at h
    by_cases he : rp = ""
    · simp [hrp, he]
    · simp only [if_neg he] at h
      simp [hrp, he, h]

theorem checkCompatibility_fail {sc : String → String → Bool}
    {doc : LockDoc} {pv : List Nat} {rp : String} (file : Option LockDoc)
    (hrp : doc.requiresPython = some rp) (hne : rp ≠ "")
    (hf : sc rp (joinVersion (pv.take 3)) = false) :
    checkCompatibility sc file ⟨some doc⟩ pv =
      (.error (.valueError (incompatiblePythonMsg rp (joinVersion (pv.take 3)))),
        ⟨some doc⟩) := by
  unfold checkCompatibility
  rw [ensureLoaded_cached]
  simp [hrp, hne, hf]

theorem getRequirements_eval {sc : String → String → Bool}
    {me : String → Except Unit Bool} {sv : List Nat} {doc : LockDoc}
    {v : String} (ex dg : Option (List String)) (pvO : Option (List Nat))
    (hv : doc.lockVersion = some v) (h1 : strStartsWith v "1." = true)
    (hc : docCompatible sc doc (pvO.getD (sv.take 3)) = true) :
    getRequirements sc me sv (some doc) ⟨none⟩ ex dg pvO =
      (.ok (processPackages sc me (pvO.getD (sv.take 3)) (ex.getD [])
        (dg.getD doc.defaultGroups) doc.packages), ⟨some doc⟩) := by
  simp only [getRequirements, ensureLoaded_fresh_valid hv h1,
    checkCompatibility_ok (some doc) hc]

theorem getRequirements_incompat {sc : String → String → Bool}
    {me : String → Except Unit Bool} {sv : List Nat} {doc : LockDoc}
    {v rp : String} (ex dg : Option (List String)) (pvO : Option (List Nat))
    (hv : doc.lockVersion = some v) (h1 : strStartsWith v "1." = true)
    (hrp : doc.requiresPython = some rp) (hne : rp ≠ "")
    (hf : sc rp (joinVersion ((pvO.getD (sv.take 3)).take 3)) = false) :
    getRequirements sc me sv (some doc) ⟨none⟩ ex dg pvO =
      (.error (.valueError (incompatiblePythonMsg rp
        (joinVersion ((pvO.getD (sv.take 3)).take 3)))), ⟨some doc⟩) := by
  simp only [getRequirements, ensureLoaded_fresh_valid hv h1,
    checkCompatibility_fail (some doc) hrp hne hf]

theorem strAppend_left_ne_empty {a : String} (b : String) (h : a ≠ "") :
    a ++ b ≠ "" := by
  intro hc
  apply h
  have hd := congrArg String.data hc
  rw [String.data_append] at hd
  exact String.ext (List.append_eq_nil.mp hd).1

theorem shouldInstallPackage_ignores (me : String → Except Unit Bool)
    (pkg : Package) (e1 d1 e2 d2 : List String) :
    shouldInstallPackage me pkg e1 d1 = shouldInstallPackage me pkg e2 d2 := rfl

theorem processPackages_ignores (sc : String → String → Bool)
    (me : String → Except Unit Bool) (pv : List Nat)
    (e1 d1 e2 d2 : List String) (pkgs : List Package) :
    processPackages sc me pv e1 d1 pkgs = processPackages sc me pv e2 d2 pkgs := by
  induction pkgs with
  | nil => rfl
  | cons pkg rest ih =>
    simp only [processPackages, ih, shouldInstallPackage_ignores me pkg e1 d1 e2 d2]

theorem processPackages_append (sc : String → String → Bool)
    (me : String → Except Unit Bool) (pv : List Nat) (ex dg : List String)
    (l1 l2 : List Package) :
    processPackages sc me pv ex dg (l1 ++ l2) =
      processPackages sc me pv ex dg l1 ++ processPackages sc me pv ex dg l2 := by
  induction l1 with
  | nil => simp [processPackages]
  | cons pkg rest ih =>
    simp only [List.cons_append, processPackages]
    split
    · exact ih
    · split
      · exact ih
      · split
        · exact ih
        · split
          · exact ih
          · exact congrArg (List.cons _) ih

theorem processPackages_skip {sc : String → String → Bool}
    {pkg : Package} {prp : String} {pv : List Nat}
    (me : String → Except Unit Bool) (ex dg : List String)
    (hrp : pkg.requiresPython = some prp) (hne : prp ≠ "")
    (hf : sc prp (joinVersion pv) = false) (rest : List Package) :
    processPackages sc me pv ex dg (pkg :: rest) =
      processPackages sc me pv ex dg rest := by
  simp only [processPackages, hrp, hne, hf]
  split <;> simp

theorem processPackages_marker_included {me : String → Except Unit Bool}
    {pkg : Package} {m n : String}
    (sc : String → String → Bool) (pv : List Nat) (ex dg : List String)
    (hm : pkg.marker = some m) (he : me m = .error ())
    (hrp : pkg.requiresPython = none) (hn : pkg.name = some n) (hne : n ≠ "")
    (rest : List Package) :
    ∃ s, buildRequirementString pkg = some s ∧ s ≠ "" ∧
      processPackages sc me pv ex dg (pkg :: rest) =
        s :: processPackages sc me pv ex dg rest := by
  have hinst : shouldInstallPackage me pkg ex dg = true := by
    by_cases hme : m = "" <;> simp [shouldInstallPackage, hm, hme, he]
  cases hver : pkg.version with
  | none =>
    refine ⟨n, ?_, hne, ?_⟩
    · simp [buildRequirementString, hn, hne, hver]
    · simp [processPackages, hinst, hrp, buildRequirementString, hn, hne, hver]
  | some ver =>
    by_cases hve : ver = ""
    · refine ⟨n, ?_, hne, ?_⟩
      · simp [buildRequirementString, hn, hne, hver, hve]
      · simp [processPackages, hinst, hrp, buildRequirementString, hn, hne, hver, hve]
    · have hsne : n ++ "==" ++ ver ≠ "" :=
        strAppend_left_ne_empty ver (strAppend_left_ne_empty "==" hne)
      refine ⟨n ++ "==" ++ ver, ?_, hsne, ?_⟩
      · simp [buildRequirementString, hn, hne, hver, hve]
      · simp [processPackages, hinst, hrp, buildRequirementString, hn, hne, hver,
          hve, hsne]

theorem processPackages_plain {sc : String → String → Bool}
    {me : String → Except Unit Bool} {pv : List Nat} {ex dg : List String}
    {pkgs : List Package}
    (h : ∀ p ∈ pkgs, p.marker = none ∧ p.requiresPython = none ∧
      p.name ≠ none ∧ p.name ≠ some "" ∧ p.version ≠ none ∧ p.version ≠ some "") :
    processPackages sc me pv ex dg pkgs =
      pkgs.map (fun p => p.name.getD "" ++ "==" ++ p.version.getD "") := by
  induction pkgs with
  | nil => rfl
  | cons pkg rest ih =>
    obtain ⟨hm, hrp, hn0, hn1, hv0, hv1⟩ := h pkg (List.mem_cons_self pkg rest)
    cases hn : pkg.name with
    | none => exact absurd hn hn0
    | some n =>
    cases hver : pkg.version with
    | none => exact absurd hver hv0
    | some ver =>
    have hne : n ≠ "" := by rintro rfl; rw [hn] at hn1; exact hn1 rfl
    have hve : ver ≠ "" := by rintro rfl; rw [hver] at hv1; exact hv1 rfl
    have hsne : n ++ "==" ++ ver ≠ "" :=
      strAppend_left_ne_empty ver (strAppend_left_ne_empty "==" hne)
    have hrest := ih (fun p hp => h p (List.mem_cons_of_mem pkg hp))
    simp [processPackages, shouldInstallPackage, hm, hrp, buildRequirementString,
      hn, hne, hver, hve, hsne, hrest]

theorem getRequirements_cached_eval {sc : String → String → Bool}
    {me : String → Except Unit Bool} {sv : List Nat} {doc : LockDoc}
    (file : Option LockDoc) (ex dg : Option (List String))
    (pvO : Option (List Nat))
    (hc : docCompatible sc doc (pvO.getD (sv.take 3)) = true) :
    getRequirements sc me sv file ⟨some doc⟩ ex dg pvO =
      (.ok (processPackages sc me (pvO.getD (sv.take 3)) (ex.getD [])
        (dg.getD doc.defaultGroups) doc.packages), ⟨some doc⟩) := by
  simp only [getRequirements, ensureLoaded_cached,
    checkCompatibility_ok file hc]

/-! ## Claims -/

/-- C8: the lock-file recognition predicate returns true exactly when the
lower-cased path string is "pylock.toml", or it both starts with "pylock."
and ends with ".toml" (case-insensitive). -/
theorem isPylockFile_iff (s : String) :
    isPylockFile s = true ↔ isPylockFileSpec s := by
  unfold isPylockFile isPylockFileSpec
  simp [Bool.or_eq_true, Bool.and_eq_true, decide_eq_true_eq]

/-- C9: `ensure_cachedir_tag` is idempotent — a second call leaves the tag
content byte-identical — and it never overwrites an existing tag file, even
one with different content. -/
theorem ensureCachedirTag_idempotent :
    (∀ t, ensureCachedirTag (ensureCachedirTag t) = ensureCachedirTag t) ∧
    (∀ c, ensureCachedirTag (some c) = some c) := by
  refine ⟨fun t => ?_, fun c => rfl⟩
  cases t <;> rfl

/-- C6: loading a document whose lock-version does not start with "1."
fails with the unsupported-version validation error, and loading succeeds
exactly when it does start with "1." (any 1.x). -/
theorem lockVersion_validation (doc : LockDoc) (v : String)
    (hv : doc.lockVersion = some v) :
    ((ensureLoaded (some doc) ⟨none⟩).1 = .ok () ↔
      strStartsWith v "1." = true) ∧
    (strStartsWith v "1." = false →
      (ensureLoaded (some doc) ⟨none⟩).1 =
        .error (.valueError (unsupportedLockVersionMsg v))) := by
  by_cases h1 : strStartsWith v "1." = true
  · rw [ensureLoaded_fresh_valid hv h1]
    simp [h1]
  · have h1' : strStartsWith v "1." = false := by
      simpa using h1
    rw [ensureLoaded_fresh_unsupported hv h1']
    simp [h1']

/-- C6 witness: "1.0" loads, "2.0" is rejected. -/
theorem lockVersion_validation_witness :
    (ensureLoaded (some ⟨some "1.0", none, none, [], []⟩) ⟨none⟩).1 = .ok () ∧
    (ensureLoaded (some ⟨some "2.0", none, none, [], []⟩) ⟨none⟩).1 =
      .error (.valueError (unsupportedLockVersionMsg "2.0")) :=
  ⟨(lockVersion_validation ⟨some "1.0", none, none, [], []⟩ "1.0" rfl).1.mpr
      (by decide),
   (lockVersion_validation ⟨some "2.0", none, none, [], []⟩ "2.0" rfl).2
      (by decide)⟩

/-- C3 counterexample: for a document missing lock-version, the second
access to `created_by` succeeds with the default value instead of failing
with the malformed-lock error — the first (failed) access cached the
unvalidated document. -/
theorem missing_lockVersion_second_access_ok :
    (createdByProp (some docNoLockVersion)
      (createdByProp (some docNoLockVersion) ⟨none⟩).2).1 = .ok "unknown" := rfl

/-- C3 amended: for a document missing lock-version, the *first* access to
each lazily-loaded property from an unloaded state fails with the
malformed-lock error; but the load caches the document before validating,
so after that failure `created_by` succeeds with its default,
`lock_version` fails with a missing-key error instead, and
`get_requirements` proceeds (succeeding whenever the document-level
compatibility check passes). -/
theorem missing_lockVersion_first_access_fails
    (sc : String → String → Bool) (me : String → Except Unit Bool)
    (sv : List Nat) (doc : LockDoc) (h : doc.lockVersion = none) :
    (lockVersionProp (some doc) ⟨none⟩).1 =
      .error (.valueError missingLockVersionMsg) ∧
    (createdByProp (some doc) ⟨none⟩).1 =
      .error (.valueError missingLockVersionMsg) ∧
    (getRequirements sc me sv (some doc) ⟨none⟩ none none none).1 =
      .error (.valueError missingLockVersionMsg) ∧
    (createdByProp (some doc) (createdByProp (some doc) ⟨none⟩).2).1 =
      .ok (doc.createdBy.getD "unknown") ∧
    (lockVersionProp (some doc) (lockVersionProp (some doc) ⟨none⟩).2).1 =
      .error (.keyError "lock-version") ∧
    (docCompatible sc doc (sv.take 3) = true →
      ∃ reqs, (getRequirements sc me sv (some doc)
        (getRequirements sc me sv (some doc) ⟨none⟩ none none none).2
        none none none).1 = .ok reqs) := by
  have hE := ensureLoaded_fresh_missing h
  refine ⟨?_, ?_, ?_, ?_, ?_, ?_⟩
  · simp only [lockVersionProp, hE]
  · simp only [createdByProp, hE]
  · simp only [getRequirements, hE]
  · simp only [createdByProp, hE, ensureLoaded_cached]
  · simp only [lockVersionProp, hE, ensureLoaded_cached, h]
  · intro hc
    have hc' : docCompatible sc doc
        ((none : Option (List Nat)).getD (sv.take 3)) = true := hc
    simp only [getRequirements, hE, ensureLoaded_cached,
      checkCompatibility_ok (some doc) hc']
    exact ⟨_, rfl⟩

/-- C3 witness: the amended behaviour at the concrete empty document with
no lock-version. -/
theorem missing_lockVersion_first_access_fails_witness :
    (lockVersionProp (some docNoLockVersion) ⟨none⟩).1 =
      .error (.valueError missingLockVersionMsg) ∧
    (createdByProp (some docNoLockVersion) ⟨none⟩).1 =
      .error (.valueError missingLockVersionMsg) ∧
    (getRequirements specNever markerErr [3, 9, 0] (some docNoLockVersion)
      ⟨none⟩ none none none).1 =
      .error (.valueError missingLockVersionMsg) ∧
    (createdByProp (some docNoLockVersion)
      (createdByProp (some docNoLockVersion) ⟨none⟩).2).1 = .ok "unknown" ∧
    (lockVersionProp (some docNoLockVersion)
      (lockVersionProp (some docNoLockVersion) ⟨none⟩).2).1 =
      .error (.keyError "lock-version") ∧
    (docCompatible specNever docNoLockVersion ([3, 9, 0].take 3) = true →
      ∃ reqs, (getRequirements specNever markerErr [3, 9, 0]
        (some docNoLockVersion)
        (getRequirements specNever markerErr [3, 9, 0] (some docNoLockVersion)
          ⟨none⟩ none none none).2 none none none).1 = .ok reqs) :=
  missing_lockVersion_first_access_fails specNever markerErr [3, 9, 0]
    docNoLockVersion rfl

/-- C5: a package whose marker evaluation raises is conservatively kept by
the marker step, a package with no marker always passes the marker step,
and such a package (with a name and no requires-python restriction)
appears in the computed requirement list. -/
theorem marker_eval_failure_included (sc : String → String → Bool)
    (me : String → Except Unit Bool) (pv : List Nat) (ex dg : List String)
    (pkg : Package) :
    (∀ m, pkg.marker = some m → me m = .error () →
      shouldInstallPackage me pkg ex dg = true) ∧
    (pkg.marker = none → shouldInstallPackage me pkg ex dg = true) ∧
    (∀ m n pre post, pkg.marker = some m → me m = .error () →
      pkg.requiresPython = none → pkg.name = some n → n ≠ "" →
      ∃ s, buildRequirementString pkg = some s ∧
        processPackages sc me pv ex dg (pre ++ pkg :: post) =
          processPackages sc me pv ex dg pre ++
            s :: processPackages sc me pv ex dg post) := by
  refine ⟨?_, ?_, ?_⟩
  · intro m hm he
    by_cases hme : m = "" <;> simp [shouldInstallPackage, hm, hme, he]
  · intro hm
    simp [shouldInstallPackage, hm]
  · intro m n pre post hm he hrp hn hne
    obtain ⟨s, hb, _, hsplit⟩ :=
      processPackages_marker_included sc pv ex dg hm he hrp hn hne post
    exact ⟨s, hb, by rw [processPackages_append, hsplit]⟩

/-- C5 witness: a package with a PEP 751 extension marker that the marker
collaborator fails to evaluate is kept and contributes its pinned
requirement. -/
theorem marker_eval_failure_included_witness :
    shouldInstallPackage markerErr pkgMarkerExt [] [] = true ∧
    (∃ s, buildRequirementString pkgMarkerExt = some s ∧
      processPackages specNever markerErr [3, 9, 0] [] []
          ([] ++ pkgMarkerExt :: []) =
        processPackages specNever markerErr [3, 9, 0] [] [] [] ++
          s :: processPackages specNever markerErr [3, 9, 0] [] [] []) := by
  have h := marker_eval_failure_included specNever markerErr [3, 9, 0] [] []
    pkgMarkerExt
  exact ⟨h.1 "dev in dependency_groups" rfl rfl,
    h.2.2 "dev in dependency_groups" "dev-tool" [] [] rfl rfl rfl rfl
      (by decide)⟩

/-- C10: the result of `get_requirements` does not depend on the `extras`
or `dependency_groups` arguments — the marker-evaluation step never
consults either set. -/
theorem getRequirements_independent_of_extras_groups
    (sc : String → String → Bool) (me : String → Except Unit Bool)
    (sv : List Nat) (file : Option LockDoc) (st : PylockState)
    (e1 e2 d1 d2 : Option (List String)) (pv : Option (List Nat)) :
    getRequirements sc me sv file st e1 d1 pv =
      getRequirements sc me sv file st e2 d2 pv := by
  unfold getRequirements
  split
  · rfl
  · split
    · rfl
    · dsimp only
      split
      · rfl
      · rw [processPackages_ignores sc me _ (e1.getD []) _ (e2.getD []) _ _]

/-- C1: for a loadable, document-level-compatible lock document all of
whose package entries carry a (truthy) name and version and no marker and
no requires-python, `get_requirements()` with default arguments returns
one `name==version` requirement string per entry, in document order; in
particular N entries give exactly N strings. -/
theorem getRequirements_plain_entries (sc : String → String → Bool)
    (me : String → Except Unit Bool) (sv : List Nat) (doc : LockDoc)
    (v : String) (hv : doc.lockVersion = some v)
    (h1 : strStartsWith v "1." = true)
    (hc : docCompatible sc doc (sv.take 3) = true)
    (hp : ∀ p ∈ doc.packages, p.marker = none ∧ p.requiresPython = none ∧
      p.name ≠ none ∧ p.name ≠ some "" ∧ p.version ≠ none ∧
      p.version ≠ some "") :
    (getRequirements sc me sv (some doc) ⟨none⟩ none none none).1 =
      .ok (doc.packages.map
        (fun p => p.name.getD "" ++ "==" ++ p.version.getD "")) := by
  have hc' : docCompatible sc doc
      ((none : Option (List Nat)).getD (sv.take 3)) = true := hc
  rw [getRequirements_eval none none none hv h1 hc']
  simp only []
  rw [processPackages_plain hp]

/-- C1 witness: the one-package document
`{lock-version:"1.0", packages:[{name:"pytest", version:"7.4.0"}]}`
yields `["pytest==7.4.0"]`. -/
theorem getRequirements_plain_entries_witness :
    (getRequirements specNever markerErr [3, 9, 0] (some docPytest) ⟨none⟩
      none none none).1 = .ok ["pytest==7.4.0"] :=
  getRequirements_plain_entries specNever markerErr [3, 9, 0] docPytest
    "1.0" rfl (by decide) (by decide) (by decide)

/-- C4: a document-level requires-python unsatisfied by the queried
interpreter version makes `get_requirements` fail with the
incompatible-interpreter validation error, while a package entry whose own
requires-python excludes the queried version is silently dropped from the
result — the result equals that of the same document without the entry,
and is a success. -/
theorem requiresPython_document_fatal_package_silent
    (sc : String → String → Bool) (me : String → Except Unit Bool)
    (sv : List Nat) :
    (∀ (doc : LockDoc) (v rp : String) (pv : List Nat),
      doc.lockVersion = some v → strStartsWith v "1." = true →
      doc.requiresPython = some rp → rp ≠ "" →
      sc rp (joinVersion (pv.take 3)) = false →
      (getRequirements sc me sv (some doc) ⟨none⟩ none none (some pv)).1 =
        .error (.valueError
          (incompatiblePythonMsg rp (joinVersion (pv.take 3))))) ∧
    (∀ (doc : LockDoc) (v prp : String) (pv : List Nat)
        (pre post : List Package) (pkg : Package),
      doc.lockVersion = some v → strStartsWith v "1." = true →
      docCompatible sc doc pv = true →
      pkg.requiresPython = some prp → prp ≠ "" →
      sc prp (joinVersion pv) = false →
      ∃ reqs,
        (getRequirements sc me sv
          (some { doc with packages := pre ++ pkg :: post }) ⟨none⟩
          none none (some pv)).1 = .ok reqs ∧
        (getRequirements sc me sv
          (some { doc with packages := pre ++ post }) ⟨none⟩
          none none (some pv)).1 = .ok reqs) := by
  constructor
  · intro doc v rp pv hv h1 hrp hne hf
    rw [getRequirements_incompat none none (some pv) hv h1 hrp hne hf]
    simp [Option.getD_some]
  · intro doc v prp pv pre post pkg hv h1 hc hrp hne hf
    have hv1 : ({ doc with packages := pre ++ pkg :: post } :
        LockDoc).lockVersion = some v := hv
    have hv2 : ({ doc with packages := pre ++ post } :
        LockDoc).lockVersion = some v := hv
    have hc1 : docCompatible sc { doc with packages := pre ++ pkg :: post }
        ((some pv).getD (sv.take 3)) = true := hc
    have hc2 : docCompatible sc { doc with packages := pre ++ post }
        ((some pv).getD (sv.take 3)) = true := hc
    rw [getRequirements_eval none none (some pv) hv1 h1 hc1,
      getRequirements_eval none none (some pv) hv2 h1 hc2]
    refine ⟨_, ?_, rfl⟩
    show Except.ok (processPackages sc me pv []
      ({ doc with packages := pre ++ pkg :: post } :
        LockDoc).defaultGroups (pre ++ pkg :: post)) = _
    rw [processPackages_append, processPackages_skip me _ _ hrp hne hf,
      ← processPackages_append]
    rfl

/-- C4 witness: `requires-python = "==3.12"` at document level rejects the
query, while `old-package` with `requires-python = ">=2.7,<3.0"` is
silently dropped at package level. -/
theorem requiresPython_document_fatal_package_silent_witness :
    (getRequirements specNever markerErr [3, 9, 0] (some docIncompat) ⟨none⟩
      none none (some [3, 9, 0])).1 =
      .error (.valueError (incompatiblePythonMsg "==3.12" "3.9.0")) ∧
    (∃ reqs,
      (getRequirements specNever markerErr [3, 9, 0]
        (some { (⟨some "1.0", none, none, [], []⟩ : LockDoc) with
          packages := [] ++ pkgOld :: [] }) ⟨none⟩
        none none (some [3, 9, 0])).1 = .ok reqs ∧
      (getRequirements specNever markerErr [3, 9, 0]
        (some { (⟨some "1.0", none, none, [], []⟩ : LockDoc) with
          packages := [] ++ [] }) ⟨none⟩
        none none (some [3, 9, 0])).1 = .ok reqs) := by
  have h := requiresPython_document_fatal_package_silent specNever markerErr
    [3, 9, 0]
  exact ⟨h.1 docIncompat "1.0" "==3.12" [3, 9, 0] rfl (by decide) rfl
      (by decide) rfl,
    h.2 ⟨some "1.0", none, none, [], []⟩ "1.0" ">=2.7,<3.0" [3, 9, 0] [] []
      pkgOld rfl (by decide) (by decide) rfl (by decide) rfl⟩

/-- C7: when the pylock expansion of a lock-file reference raises, both
pylock-aware `_get_file_content` overrides hand the reference, unchanged,
to the standard file-based content handling (self-content check and base
class read), and the lock failure itself is not surfaced. -/
theorem lock_expansion_failure_fallback
    (lockReqs : String → Except Unit (List String))
    (superGet : String → Except Unit String) (selfPath raw url : String)
    (hp : isPylockFile (pathName url) = true)
    (he : lockReqs url = .error ()) :
    pyDepsGetFileContent lockReqs superGet selfPath raw url =
      (if url = selfPath then .ok raw else superGet url) ∧
    pylockAwareGetFileContent lockReqs superGet url = superGet url := by
  unfold pyDepsGetFileContent pylockAwareGetFileContent
  by_cases hs : isUrlScheme url = true <;> simp [hs, hp, he]

/-- C7 witness: a named lock file whose expansion raises falls back to the
standard handling in both overrides. -/
theorem lock_expansion_failure_fallback_witness :
    pyDepsGetFileContent lockReqsPytest superGetNone "tox.ini" "raw"
        "pylock.dev.toml" =
      (if ("pylock.dev.toml" : String) = "tox.ini" then .ok "raw"
        else superGetNone "pylock.dev.toml") ∧
    pylockAwareGetFileContent lockReqsPytest superGetNone "pylock.dev.toml" =
      superGetNone "pylock.dev.toml" :=
  lock_expansion_failure_fallback lockReqsPytest superGetNone "tox.ini" "raw"
    "pylock.dev.toml" (by decide) rfl

theorem plainReqLine_parts {l : String} (h : plainReqLine l = true) :
    lineDirective l = none ∧ ¬l = "" ∧ strStartsWith l "#" = false ∧
      strStartsWith l "-" = false := by
  simp only [plainReqLine, Bool.and_eq_true, Option.isNone_iff_eq_none,
    Bool.not_eq_true', decide_eq_false_iff_not] at h
  exact ⟨h.1.1.1, h.1.1.2, h.1.2, h.2⟩

theorem parseReqLines_plain (gc : String → Except Unit String) :
    ∀ (fuel : Nat) (lines : List String)
      (out : List String × List String × List String),
      (∀ l ∈ lines, plainReqLine l = true) →
      parseReqLines gc fuel lines = .ok out → out = (lines, [], []) := by
  intro fuel
  induction fuel with
  | zero =>
    intro lines out h hp
    cases lines with
    | nil =>
      simp only [parseReqLines, Except.ok.injEq] at hp
      exact hp.symm
    | cons l rest => simp [parseReqLines] at hp
  | succ n ih =>
    intro lines out h hp
    cases lines with
    | nil =>
      simp only [parseReqLines, Except.ok.injEq] at hp
      exact hp.symm
    | cons l rest =>
      obtain ⟨hdir, hne, hcom, hdash⟩ :=
        plainReqLine_parts (h l (List.mem_cons_self l rest))
      rw [parseReqLines, hdir] at hp
      simp only [if_neg hne, hcom, hdash, Bool.false_eq_true, if_false] at hp
      cases hsub : parseReqLines gc n rest with
      | error e => rw [hsub] at hp; simp at hp
      | ok t =>
        obtain ⟨a, b, c⟩ := t
        rw [hsub] at hp
        simp only [Except.ok.injEq] at hp
        have := ih rest (a, b, c)
          (fun x hx => h x (List.mem_cons_of_mem l hx)) hsub
        rw [Prod.mk.injEq, Prod.mk.injEq] at this
        obtain ⟨h1, h2, h3⟩ := this
        subst h1; subst h2; subst h3
        exact hp.symm

theorem parseReqLines_inv (gc : String → Except Unit String) :
    ∀ (fuel : Nat) (lines reqs rs cs : List String),
      parseReqLines gc fuel lines = .ok (reqs, rs, cs) →
      (∀ x ∈ reqs, strStartsWith x "-" = false) ∧
      (∀ x ∈ rs, strStartsWith x "-" = false) ∧
      (∀ x ∈ cs, strStartsWith x "-" = false) := by
  intro fuel
  induction fuel with
  | zero =>
    intro lines reqs rs cs hp
    cases lines with
    | nil =>
      simp only [parseReqLines, Except.ok.injEq, Prod.mk.injEq] at hp
      obtain ⟨h1, h2, h3⟩ := hp
      subst h1; subst h2; subst h3
      simp
    | cons l rest => simp [parseReqLines] at hp
  | succ n ih =>
    intro lines reqs rs cs hp
    cases lines with
    | nil =>
      simp only [parseReqLines, Except.ok.injEq, Prod.mk.injEq] at hp
      obtain ⟨h1, h2, h3⟩ := hp
      subst h1; subst h2; subst h3
      simp
    | cons l rest =>
      rw [parseReqLines] at hp
      cases hdir : lineDirective l with
      | some bf =>
        obtain ⟨b, f⟩ := bf
        rw [hdir] at hp
        cases b with
        | true =>
          simp only at hp
          cases hgs : strStartsWith f "-" with
          | true => rw [hgs] at hp; simp at hp
          | false =>
            rw [hgs] at hp
            simp only [Bool.false_eq_true, if_false] at hp
            cases hgc : gc f with
            | error e => rw [hgc] at hp; simp at hp
            | ok content =>
              simp only [hgc] at hp
              cases hsub : parseReqLines gc n (splitNl content) with
              | error e => rw [hsub] at hp; simp at hp
              | ok t1 =>
                obtain ⟨a1, b1, c1⟩ := t1
                rw [hsub] at hp
                cases hrest : parseReqLines gc n rest with
                | error e => rw [hrest] at hp; simp at hp
                | ok t2 =>
                  obtain ⟨a2, b2, c2⟩ := t2
                  rw [hrest] at hp
                  simp only [Except.ok.injEq, Prod.mk.injEq] at hp
                  obtain ⟨h1, h2, h3⟩ := hp
                  subst h1; subst h2; subst h3
                  obtain ⟨i1, i2, i3⟩ := ih _ _ _ _ hsub
                  obtain ⟨j1, j2, j3⟩ := ih _ _ _ _ hrest
                  refine ⟨?_, ?_, ?_⟩
                  · intro x hx
                    rcases List.mem_append.mp hx with hx | hx
                    · exact i1 x hx
                    · exact j1 x hx
                  · intro x hx
                    rcases List.mem_cons.mp hx with rfl | hx
                    · exact hgs
                    · rcases List.mem_append.mp hx with hx | hx
                      · exact i2 x hx
                      · exact j2 x hx
                  · intro x hx
                    rcases List.mem_append.mp hx with hx | hx
                    · exact i3 x hx
                    · exact j3 x hx
        | false =>
          simp only at hp
          cases hgs : strStartsWith f "-" with
          | true => rw [hgs] at hp; simp at hp
          | false =>
            rw [hgs] at hp
            simp only [Bool.false_eq_true, if_false] at hp
            cases hrest : parseReqLines gc n rest with
            | error e => rw [hrest] at hp; simp at hp
            | ok t2 =>
              obtain ⟨a2, b2, c2⟩ := t2
              rw [hrest] at hp
              simp only [Except.ok.injEq, Prod.mk.injEq] at hp
              obtain ⟨h1, h2, h3⟩ := hp
              subst h1; subst h2; subst h3
              obtain ⟨j1, j2, j3⟩ := ih _ _ _ _ hrest
              refine ⟨j1, j2, ?_⟩
              intro x hx
              rcases List.mem_cons.mp hx with rfl | hx
              · exact hgs
              · exact j3 x hx
      | none =>
        rw [hdir] at hp
        by_cases hbl : l = ""
        · rw [if_pos hbl] at hp
          exact ih _ _ _ _ hp
        · rw [if_neg hbl] at hp
          cases hcom : strStartsWith l "#" with
          | true => rw [hcom] at hp; simp only [if_true] at hp; exact ih _ _ _ _ hp
          | false =>
            rw [hcom] at hp
            simp only [Bool.false_eq_true, if_false] at hp
            cases hdash : strStartsWith l "-" with
            | true => rw [hdash] at hp; simp at hp
            | false =>
              rw [hdash] at hp
              simp only [Bool.false_eq_true, if_false] at hp
              cases hrest : parseReqLines gc n rest with
              | error e => rw [hrest] at hp; simp at hp
              | ok t2 =>
                obtain ⟨a2, b2, c2⟩ := t2
                rw [hrest] at hp
                simp only [Except.ok.injEq, Prod.mk.injEq] at hp
                obtain ⟨h1, h2, h3⟩ := hp
                subst h1; subst h2; subst h3
                obtain ⟨j1, j2, j3⟩ := ih _ _ _ _ hrest
                refine ⟨?_, j2, j3⟩
                intro x hx
                rcases List.mem_cons.mp hx with rfl | hx
                · exact hdash
                · exact j1 x hx

theorem parseReqLines_include_expanded (gc : String → Except Unit String)
    {ref joined : String} {lockList : List String}
    (hgc : gc ref = .ok joined) (hjoin : splitNl joined = lockList)
    (hplain : ∀ r ∈ lockList, plainReqLine r = true) :
    ∀ (fuel : Nat) (pre post : List String) (l : String)
      (reqs rs cs : List String),
      lineDirective l = some (true, ref) →
      parseReqLines gc fuel (pre ++ l :: post) = .ok (reqs, rs, cs) →
      ∀ r ∈ lockList, r ∈ reqs := by
  intro fuel
  induction fuel with
  | zero =>
    intro pre post l reqs rs cs hdir hp
    cases pre <;> simp [parseReqLines] at hp
  | succ n ih =>
    intro pre post l reqs rs cs hdir hp
    cases pre with
    | nil =>
      rw [List.nil_append, parseReqLines] at hp
      simp only [hdir] at hp
      cases hgs : strStartsWith ref "-" with
      | true => rw [hgs] at hp; simp at hp
      | false =>
        rw [hgs] at hp
        simp only [Bool.false_eq_true, if_false, hgc, hjoin] at hp
        cases hsub : parseReqLines gc n lockList with
        | error e => rw [hsub] at hp; simp at hp
        | ok t1 =>
          obtain ⟨a1, b1, c1⟩ := t1
          have hplainEq := parseReqLines_plain gc n lockList (a1, b1, c1)
            hplain hsub
          rw [Prod.mk.injEq, Prod.mk.injEq] at hplainEq
          obtain ⟨h1, h2, h3⟩ := hplainEq
          subst h1; subst h2; subst h3
          simp only [hsub] at hp
          cases hrest : parseReqLines gc n post with
          | error e => rw [hrest] at hp; simp at hp
          | ok t2 =>
            obtain ⟨a2, b2, c2⟩ := t2
            simp only [hrest, Except.ok.injEq, Prod.mk.injEq] at hp
            obtain ⟨h1, _, _⟩ := hp
            subst h1
            intro r hr
            exact List.mem_append_left a2 hr
    | cons p pre' =>
      rw [List.cons_append, parseReqLines] at hp
      cases hdp : lineDirective p with
      | some bf =>
        obtain ⟨b, f⟩ := bf
        simp only [hdp] at hp
        cases b with
        | true =>
          simp only at hp
          cases hgs : strStartsWith f "-" with
          | true => rw [hgs] at hp; simp at hp
          | false =>
            rw [hgs] at hp
            simp only [Bool.false_eq_true, if_false] at hp
            cases hgf : gc f with
            | error e => rw [hgf] at hp; simp at hp
            | ok content =>
              simp only [hgf] at hp
              cases hsub : parseReqLines gc n (splitNl content) with
              | error e => rw [hsub] at hp; simp at hp
              | ok t1 =>
                obtain ⟨a1, b1, c1⟩ := t1
                simp only [hsub] at hp
                cases hrest : parseReqLines gc n (pre' ++ l :: post) with
                | error e => rw [hrest] at hp; simp at hp
                | ok t2 =>
                  obtain ⟨a2, b2, c2⟩ := t2
                  simp only [hrest, Except.ok.injEq, Prod.mk.injEq] at hp
                  obtain ⟨h1, _, _⟩ := hp
                  subst h1
                  intro r hr
                  exact List.mem_append_right a1
                    (ih pre' post l a2 b2 c2 hdir hrest r hr)
        | false =>
          simp only at hp
          cases hgs : strStartsWith f "-" with
          | true => rw [hgs] at hp; simp at hp
          | false =>
            rw [hgs] at hp
            simp only [Bool.false_eq_true, if_false] at hp
            cases hrest : parseReqLines gc n (pre' ++ l :: post) with
            | error e => rw [hrest] at hp; simp at hp
            | ok t2 =>
              obtain ⟨a2, b2, c2⟩ := t2
              simp only [hrest, Except.ok.injEq, Prod.mk.injEq] at hp
              obtain ⟨h1, _, _⟩ := hp
              subst h1
              exact ih pre' post l a2 b2 c2 hdir hrest
      | none =>
        simp only [hdp] at hp
        by_cases hbl : p = ""
        · rw [if_pos hbl] at hp
          exact ih pre' post l reqs rs cs hdir hp
        · rw [if_neg hbl] at hp
          cases hcom : strStartsWith p "#" with
          | true =>
            rw [hcom] at hp
            simp only [if_true] at hp
            exact ih pre' post l reqs rs cs hdir hp
          | false =>
            rw [hcom] at hp
            simp only [Bool.false_eq_true, if_false] at hp
            cases hdash : strStartsWith p "-" with
            | true => rw [hdash] at hp; simp at hp
            | false =>
              rw [hdash] at hp
              simp only [Bool.false_eq_true, if_false] at hp
              cases hrest : parseReqLines gc n (pre' ++ l :: post) with
              | error e => rw [hrest] at hp; simp at hp
              | ok t2 =>
                obtain ⟨a2, b2, c2⟩ := t2
                simp only [hrest, Except.ok.injEq, Prod.mk.injEq] at hp
                obtain ⟨h1, _, _⟩ := hp
                subst h1
                intro r hr
                exact List.mem_cons_of_mem p
                  (ih pre' post l a2 b2 c2 hdir hrest r hr)

theorem mem_of_getLastQ {α : Type} {l : List α} {x : α}
    (h : x ∈ l.getLast?) : x ∈ l := by
  obtain ⟨hne, hx⟩ := List.mem_getLast?_eq_getLast h
  subst hx
  exact List.getLast_mem hne

theorem ne_r_of_not_dash {x : String} (h : strStartsWith x "-" = false) :
    x ≠ "-r" := by
  rintro rfl
  exact absurd h (by decide)

theorem chain'_of_forall_ne {l : List String}
    (h : ∀ x ∈ l, x ≠ "-r") : l.Chain' noLockRefPair := by
  induction l with
  | nil => exact List.chain'_nil
  | cons a t ih =>
    refine List.Chain'.cons'
      (ih fun x hx => h x (List.mem_cons_of_mem a hx)) ?_
    intro y _ har
    exact absurd har (h a (List.mem_cons_self a t))

theorem rcPairs_chain (flag : String) (rl : List String)
    (hR : ∀ r ∈ rl, noLockRefPair flag r) (hr : ∀ r ∈ rl, r ≠ "-r") :
    (rcPairs flag rl).Chain' noLockRefPair ∧
      ∀ x ∈ (rcPairs flag rl).getLast?, x ≠ "-r" := by
  induction rl with
  | nil => exact ⟨List.chain'_nil, by simp [rcPairs]⟩
  | cons r rest ih =>
    obtain ⟨ihc, ihl⟩ := ih (fun x hx => hR x (List.mem_cons_of_mem r hx))
      (fun x hx => hr x (List.mem_cons_of_mem r hx))
    rw [rcPairs]
    constructor
    · refine List.Chain'.cons' (List.Chain'.cons' ihc ?_) ?_
      · intro y _ hre
        exact absurd hre (hr r (List.mem_cons_self r rest))
      · intro y hy
        simp only [List.head?_cons, Option.mem_def, Option.some.injEq] at hy
        subst hy
        exact hR r (List.mem_cons_self r rest)
    · cases hrest : rcPairs flag rest with
      | nil =>
        intro x hx
        simp only [hrest, List.getLast?_cons_cons, List.getLast?_singleton,
          Option.mem_def, Option.some.injEq] at hx
        subst hx
        exact hr r (List.mem_cons_self r rest)
      | cons q qs =>
        intro x hx
        rw [List.getLast?_cons_cons, List.getLast?_cons_cons] at hx
        apply ihl
        rw [hrest]
        exact hx

theorem stripRC_aux :
    ∀ (n : Nat) (l : List String), l.length ≤ n →
      (stripRC l).Chain' (fun a _ => a ≠ "-r" ∧ a ≠ "-c") := by
  intro n
  induction n with
  | zero =>
    intro l hl
    have : l = [] := List.eq_nil_of_length_eq_zero (Nat.le_zero.mp hl)
    subst this
    exact List.chain'_nil
  | succ n ih =>
    intro l hl
    match l with
    | [] => exact List.chain'_nil
    | [a] => exact List.chain'_singleton a
    | a :: b :: rest =>
      rw [stripRC]
      by_cases hc : (a = "-r" || a = "-c") = true
      · rw [if_pos hc]
        refine ih rest ?_
        simp only [List.length_cons] at hl
        omega
      · rw [if_neg hc]
        simp only [Bool.or_eq_true, decide_eq_true_eq, not_or] at hc
        refine List.Chain'.cons' (ih (b :: rest) ?_) ?_
        · simp only [List.length_cons] at hl ⊢
          omega
        · intro y _
          exact hc

theorem stripRC_chain (l : List String) :
    (stripRC l).Chain' noLockRefPair := by
  refine (stripRC_aux l.length l le_rfl).imp ?_
  intro a b hab har
  exact absurd har hab.1

/-- C2: for a dependency declaration whose lines include a `-r` reference
to a lock file whose pylock expansion succeeds, a successful
`as_root_args` result contains no literal lock-file reference token — no
two consecutive output arguments form a `-r <lock-file>` pair — and every
pinned requirement from the lock file appears among the output
arguments. -/
theorem asRootArgs_expands_pylock
    (lockReqs : String → Except Unit (List String))
    (superGet : String → Except Unit String) (selfPath raw ref l : String)
    (extra : List String) (fuel : Nat)
    (pre post lockList args : List String)
    (hself : isPylockFile (pathName selfPath) = false)
    (hsplit : splitNl raw = pre ++ l :: post)
    (hdir : lineDirective l = some (true, ref))
    (hscheme : isUrlScheme ref = false)
    (hpylock : isPylockFile (pathName ref) = true)
    (hok : lockReqs ref = .ok lockList)
    (hjoin : splitNl (joinNl lockList) = lockList)
    (hplain : ∀ r ∈ lockList, plainReqLine r = true)
    (hargs : asRootArgs lockReqs superGet selfPath raw extra fuel =
      .ok args) :
    args.Chain' noLockRefPair ∧ ∀ r ∈ lockList, r ∈ args := by
  have hallow : pyDepsGetFileContent lockReqs superGet selfPath raw
      selfPath = .ok raw := by
    unfold pyDepsGetFileContent
    by_cases hs : isUrlScheme selfPath = true <;> simp [hs, hself]
  unfold asRootArgs at hargs
  simp only [hallow] at hargs
  rw [hsplit] at hargs
  cases hparse : parseReqLines
      (pyDepsGetFileContent lockReqs superGet selfPath raw) fuel
      (pre ++ l :: post) with
  | error e =>
    rw [hparse] at hargs
    exact Except.noConfusion hargs
  | ok t =>
    obtain ⟨reqs, rs, cs⟩ := t
    simp only [hparse, Except.ok.injEq] at hargs
    subst hargs
    have hgcref : pyDepsGetFileContent lockReqs superGet selfPath raw ref =
        .ok (joinNl lockList) := by
      unfold pyDepsGetFileContent
      simp [hscheme, hpylock, hok]
    have hmem : ∀ r ∈ lockList, r ∈ reqs :=
      parseReqLines_include_expanded _ hgcref hjoin hplain fuel pre post l
        reqs rs cs hdir hparse
    obtain ⟨hreqsI, hrsI, hcsI⟩ := parseReqLines_inv _ fuel _ reqs rs cs
      hparse
    constructor
    · unfold optionToArgsFiltered
      have hB := rcPairs_chain "-r"
        (rs.filter (fun r => !isPylockFile (pathName r)))
        (fun r hrm => by
          intro _
          have h2 := (List.mem_filter.mp hrm).2
          simpa using h2)
        (fun r hrm =>
          ne_r_of_not_dash (hrsI r (List.mem_filter.mp hrm).1))
      have hC := rcPairs_chain "-c" cs
        (fun c _ => fun habs =>
          absurd habs (by decide : ¬(("-c" : String) = "-r")))
        (fun c hcm => ne_r_of_not_dash (hcsI c hcm))
      have hD := stripRC_chain (parentOptionToArgs rs cs extra)
      rw [List.append_assoc]
      refine List.chain'_append.mpr
        ⟨chain'_of_forall_ne (fun x hx => ne_r_of_not_dash (hreqsI x hx)),
          ?_, ?_⟩
      · refine List.chain'_append.mpr ⟨hB.1, ?_, ?_⟩
        · refine List.chain'_append.mpr ⟨hC.1, hD, ?_⟩
          intro x hx y _ har
          exact absurd har (hC.2 x hx)
        · intro x hx y _ har
          exact absurd har (hB.2 x hx)
      · intro x hx y _ har
        exact absurd har (ne_r_of_not_dash (hreqsI x (mem_of_getLastQ hx)))
    · intro r hr
      exact List.mem_append_left _ (hmem r hr)

/-- C2 witness: `deps = "-r pylock.toml"` flattens to the single pinned
argument `pytest==7.4.0`, with no literal `-r pylock.toml` pair. -/
theorem asRootArgs_expands_pylock_witness :
    (["pytest==7.4.0"] : List String).Chain' noLockRefPair ∧
      ∀ r ∈ (["pytest==7.4.0"] : List String),
        r ∈ (["pytest==7.4.0"] : List String) :=
  asRootArgs_expands_pylock lockReqsPytest superGetNone "/p/tox.ini"
    "-r pylock.toml" "pylock.toml" "-r pylock.toml" [] 2 [] []
    ["pytest==7.4.0"] ["pytest==7.4.0"] (by decide) rfl rfl rfl (by decide)
    rfl rfl (by decide) rfl
